import Mathlib

/-!
Shallow embedding of `scripts/generate_app_icon.py` — the icon-composer
pipeline: manifest records, `parse_size`, the filename derivation of
`ensure_filenames`, the per-request resampling of `generate_from_contents`,
and the gradient loop of `gradient_bg` — together with proofs of the
specification's claims.

Modelling conventions.  Python's unbounded integers are `Int`/`Nat`.  The
`float` values the script computes all come from short decimal literals in
`size` fields and stay in a range where double precision is exact for the
operations performed, so they are embedded as exact scaled decimals
(`Dec`, value `mant / 10 ^ dexp`).  A PIL raster is modelled by its
observable dimensions (`OutputImage`); the gradient loop, by the array of
row colors it writes.  Filesystem effects are an explicit ordered trace of
`Event`s, and a raised exception is the `Option String` error component of
a run.  JSON values of fields the script never reads are carried opaquely
as strings.
-/

namespace RunC

/-- Python truthiness of `entry.get(key)` for a string-valued key:
a missing key (`None`) and the empty string are falsy. -/
def truthy : Option String → Bool
  | none => false
  | some s => s != ""

/-- Lowercasing of one character, on the ASCII fragment exercised by
manifest `size` strings (Python `str.lower`). -/
def lowerChar (c : Char) : Char :=
  if 'A' ≤ c ∧ c ≤ 'Z' then Char.ofNat (c.toNat + 32) else c

/-- Python `str.split(sep)` for a one-character separator, over the
character list of the string: `"60x60".split('x') = ["60", "60"]`,
`"".split('x') = [""]`. -/
def splitChar (sep : Char) : List Char → List (List Char)
  | [] => [[]]
  | c :: rest =>
    let r := splitChar sep rest
    if c = sep then [] :: r
    else
      match r with
      | [] => [[c]]
      | p :: ps => (c :: p) :: ps

/-- Value of a digit list, most significant first. -/
def digitsVal (l : List Char) : Nat :=
  l.foldl (fun n c => 10 * n + (c.toNat - 48)) 0

/-- Parse a nonempty all-digit fragment, as Python `int`/`float` do once
sign and dot are handled; `none` models a `ValueError`. -/
def natOfDigits (l : List Char) : Option Nat :=
  if l.isEmpty then none
  else if l.all Char.isDigit then some (digitsVal l) else none

/-- Exact scaled decimal: the value `mant / 10 ^ dexp`.  Every width a
manifest `size` field holds is a short decimal literal, represented
exactly both by Python's float and by this type. -/
structure Dec where
  mant : Int
  dexp : Nat
deriving Repr, DecidableEq

/-- Rational value denoted by a parsed decimal. -/
def Dec.val (w : Dec) : ℚ := (w.mant : ℚ) / (10 : ℚ) ^ w.dexp

/-- Python `int(·)` applied to the value of a decimal: truncation toward
zero. -/
def Dec.toInt (w : Dec) : Int := Int.tdiv w.mant ((10 : Int) ^ w.dexp)

/-- Python `float(s)` on the decimal literals occurring in `size` fields:
optional sign, then digits with at most one decimal dot. -/
def pyFloat (l : List Char) : Option Dec :=
  let core : List Char → Option Dec := fun body =>
    match splitChar '.' body with
    | [i] => (natOfDigits i).map (fun n => ⟨(n : Int), 0⟩)
    | [i, f] =>
      if (i ++ f).isEmpty then none
      else if (i ++ f).all Char.isDigit then some ⟨(digitsVal (i ++ f) : Int), f.length⟩
      else none
    | _ => none
  match l with
  | '-' :: rest => (core rest).map (fun d => ⟨-d.mant, d.dexp⟩)
  | '+' :: rest => core rest
  | _ => core l

/-- Embeds `parse_size` (lines 13–15 of the script): lower-case, split on
`'x'`, require exactly two pieces, convert each with `float`; any failure
raises `ValueError`, aborting the run. -/
def parse_size (s : String) : Except String (Dec × Dec) :=
  match splitChar 'x' (s.data.map lowerChar) with
  | [ws, hs] =>
    match pyFloat ws, pyFloat hs with
    | some w, some h => Except.ok (w, h)
    | _, _ => Except.error "ValueError: could not convert string to float"
  | _ => Except.error "ValueError: unpack"

/-- Embeds `int(scale.replace('x', ''))` (line 99): every `'x'` removed,
then Python `int` parses an optional sign and digits; `none` models the
`ValueError`. -/
def parseScale (s : String) : Option Int :=
  match s.data.filter (fun c => c != 'x') with
  | '-' :: rest => (natOfDigits rest).map (fun n => -(n : Int))
  | '+' :: rest => (natOfDigits rest).map (fun n => (n : Int))
  | l => (natOfDigits l).map (fun n => (n : Int))

/-- Python `round` at the exactly represented rational `num / den`, for
`den > 0`: round half to even.  With `/` and `%` euclidean, `num / den`
is the floor and `num % den` the fractional part scaled by `den`. -/
def roundHalfEven (num den : Int) : Int :=
  if 2 * (num % den) < den then num / den
  else if den < 2 * (num % den) then num / den + 1
  else if (num / den) % 2 = 0 then num / den else num / den + 1

/-- Embeds `px = int(round(w_pt * sc))` (line 137): the product
`w_pt * sc` is the exact rational `(w.mant * sc) / 10 ^ w.dexp`, and
`int` of the integer `round` result is the identity. -/
def pxOf (w : Dec) (sc : Int) : Int :=
  roundHalfEven (w.mant * sc) ((10 : Int) ^ w.dexp)

/-- One record of the `images` array of `Contents.json`.  The keys the
script reads or writes are distinguished; every other key of the record
is carried untouched in `extra`. -/
structure Entry where
  size : Option String
  scale : Option String
  idiom : Option String
  filename : Option String
  extra : List (String × String)
deriving Repr, DecidableEq

/-- Forget the one field `ensure_filenames` writes. -/
def stripFilename (e : Entry) : Entry := { e with filename := none }

/-- Embeds the naming rule of `ensure_filenames` (lines 100–103): the one
reserved name for idiom exactly `ios-marketing`, otherwise
`Icon-{int(w)}@{sc}x.png`. -/
def deriveFilename (w : Dec) (sc : Int) (idiom : Option String) : String :=
  if idiom = some "ios-marketing" then "Icon-AppStore-1024.png"
  else "Icon-" ++ toString w.toInt ++ "@" ++ toString sc ++ "x.png"

/-- Embeds one iteration of the `ensure_filenames` loop (lines 92–104): a
record whose `size` or `scale` is falsy is left untouched; otherwise both
fields are parsed (a parse failure raises, aborting the whole run) and
`filename` is assigned. -/
def ensureFilename1 (e : Entry) : Except String Entry :=
  if truthy e.size && truthy e.scale then
    match parse_size (e.size.getD "") with
    | Except.error msg => Except.error msg
    | Except.ok (w, _) =>
      match parseScale (e.scale.getD "") with
      | none => Except.error "ValueError: invalid literal for int"
      | some sc => Except.ok { e with filename := some (deriveFilename w sc e.idiom) }
  else Except.ok e

/-- Embeds `ensure_filenames` (line 91): the loop over all records, in
order, aborting at the first raised `ValueError`. -/
def ensure_filenames : List Entry → Except String (List Entry)
  | [] => Except.ok []
  | e :: rest =>
    match ensureFilename1 e with
    | Except.error msg => Except.error msg
    | Except.ok e' =>
      match ensure_filenames rest with
      | Except.error msg => Except.error msg
      | Except.ok rest' => Except.ok (e' :: rest')

/-- Resampling filters; the script always passes `Image.LANCZOS`. -/
inductive Filter
  | nearest
  | bilinear
  | lanczos
deriving Repr, DecidableEq

/-- An output raster, relative to the single master composition: either
the master itself (1024×1024) or a resampled copy of it at explicit
dimensions under a given filter. -/
inductive OutputImage
  | master
  | resized (f : Filter) (w h : Int)
deriving Repr, DecidableEq

/-- Pixel width of an output raster; the master composition is built at
the canonical 1024×1024. -/
def outW : OutputImage → Int
  | OutputImage.master => 1024
  | OutputImage.resized _ w _ => w

/-- Pixel height of an output raster. -/
def outH : OutputImage → Int
  | OutputImage.master => 1024
  | OutputImage.resized _ _ h => h

/-- Embeds one iteration of the generation loop (lines 129–143): skip when
`size`, `scale` or `filename` is falsy; otherwise reparse both fields,
compute `px = int(round(w_pt * sc))`, use the master when `px == 1024`
and a Lanczos resize to `(px, px)` otherwise (PIL raises on a negative
dimension).  Returns the file written, if any. -/
def emitFile (e : Entry) : Except String (Option (String × OutputImage)) :=
  if truthy e.size && truthy e.scale && truthy e.filename then
    match parse_size (e.size.getD "") with
    | Except.error msg => Except.error msg
    | Except.ok (w, _) =>
      match parseScale (e.scale.getD "") with
      | none => Except.error "ValueError: invalid literal for int"
      | some sc =>
        if pxOf w sc = 1024 then Except.ok (some (e.filename.getD "", OutputImage.master))
        else if pxOf w sc < 0 then Except.error "ValueError: resize"
        else Except.ok (some (e.filename.getD "",
          OutputImage.resized Filter.lanczos (pxOf w sc) (pxOf w sc)))
  else Except.ok none

/-- The manifest document: its `images` array plus every other top-level
field, carried untouched. -/
structure Manifest where
  images : List Entry
  extra : List (String × String)
deriving Repr, DecidableEq

/-- Observable filesystem effects of a run, in order. -/
inductive Event
  | mkdirAssets
  | writeImage (name : String) (img : OutputImage)
  | writeManifest (m : Manifest)
deriving Repr, DecidableEq

/-- Embeds the write loop of `generate_from_contents` (lines 129–143).
`failing name = true` models a filesystem error from `target.save` for
that path; a failed save emits no event and raises, aborting the rest of
the loop.  Returns the trace of successful writes and the error, if any. -/
def runEvents (failing : String → Bool) : List Entry → List Event × Option String
  | [] => ([], none)
  | e :: rest =>
    match emitFile e with
    | Except.error msg => ([], some msg)
    | Except.ok none => runEvents failing rest
    | Except.ok (some (name, img)) =>
      if failing name then ([], some "OSError: save failed")
      else
        match runEvents failing rest with
        | (evs, err) => (Event.writeImage name img :: evs, err)

/-- Path of the manifest, `CONTENTS_PATH` in the script. -/
def CONTENTS_PATH : String := "Run-C/Assets.xcassets/AppIcon.appiconset/Contents.json"

/-- Embeds `generate_from_contents` (lines 107–145): abort when the
manifest file is absent (input `none`); otherwise derive filenames over
the parsed records, write every requested image, and only after the loop
finishes rewrite the manifest with the mutated records.  The result is
the ordered trace of filesystem events plus the error that aborted the
run, if any. -/
def generate_from_contents (failing : String → Bool) :
    Option Manifest → List Event × Option String
  | none => ([], some ("Missing Contents.json at " ++ CONTENTS_PATH))
  | some data =>
    match ensure_filenames data.images with
    | Except.error msg => ([], some msg)
    | Except.ok images =>
      match runEvents failing images with
      | (evs, some msg) => (evs, some msg)
      | (evs, none) => (evs ++ [Event.writeManifest { data with images := images }], none)

/-- Embeds `main` (lines 148–151): the asset directory is created — a
filesystem side effect — before `generate_from_contents` runs. -/
def main_run (failing : String → Bool) (m : Option Manifest) :
    List Event × Option String :=
  let r := generate_from_contents failing m
  (Event.mkdirAssets :: r.1, r.2)

/-- An 8-bit-per-channel color, channels as Python integers. -/
structure RGB where
  r : Int
  g : Int
  b : Int
deriving Repr, DecidableEq

/-- Default `top_color` of `gradient_bg` (indigo-500). -/
def top_color : RGB := ⟨99, 102, 241⟩

/-- Default `bottom_color` of `gradient_bg` (purple-600). -/
def bottom_color : RGB := ⟨147, 51, 234⟩

/-- Channelwise body of the gradient loop, `int(a + (b - a) * t)` at
`t = y / denom`, computed exactly: truncation toward zero of the rational
`(a * denom + (b - a) * y) / denom`. -/
def lerpInt (a b : Int) (y denom : Nat) : Int :=
  Int.tdiv (a * denom + (b - a) * y) denom

/-- Color the gradient loop writes over row `y`. -/
def rowColor (top bottom : RGB) (y denom : Nat) : RGB :=
  ⟨lerpInt top.r bottom.r y denom, lerpInt top.g bottom.g y denom,
    lerpInt top.b bottom.b y denom⟩

/-- Embeds one `draw.line([(0, y), (size, y)], fill=...)` call: overwrite
row `y` of the row buffer (PIL clips an out-of-range row). -/
def drawRow (top bottom : RGB) (denom : Nat) (img : Array RGB) (y : Nat) : Array RGB :=
  if h : y < img.size then img.set ⟨y, h⟩ (rowColor top bottom y denom) else img

/-- Embeds the gradient loop of `gradient_bg` (lines 26–35), before the
gloss overlay: the buffer starts filled with `top_color` (`Image.new`),
then for each `y` in `range(size)` the full row `y` is overwritten with
the interpolated color at `t = y / max(1, size - 1)`.  The image is
represented by its array of row colors (each row is uniform). -/
def gradientRows (size : Nat) (top bottom : RGB) : Array RGB :=
  (List.range size).foldl (drawRow top bottom (max 1 (size - 1)))
    (Array.mkArray size top)

/-- Manifest record `{size: "60x60", scale: "2x", idiom: "iphone"}`. -/
def eGood : Entry := ⟨some "60x60", some "2x", some "iphone", none, []⟩

/-- Record `eGood` after filename derivation. -/
def eGoodNamed : Entry := ⟨some "60x60", some "2x", some "iphone", some "Icon-60@2x.png", []⟩

/-- A record missing its `scale` field. -/
def eNoScale : Entry := ⟨some "60x60", none, some "iphone", none, []⟩

/-- Record with idiom `marketing` — not the string the script compares
against. -/
def eMarketing : Entry := ⟨some "1024x1024", some "1x", some "marketing", none, []⟩

/-- Record with idiom `ios-marketing`, the string the script does compare
against. -/
def eIosMarketing : Entry := ⟨some "1024x1024", some "1x", some "ios-marketing", none, []⟩

/-- Record for the ipad idiom with the same `size` and `scale` as
`eGood`. -/
def eIpad : Entry := ⟨some "60x60", some "2x", some "ipad", none, []⟩

/-- Record whose size/scale product `6.75 * 2 = 13.5` is positive but not
an integer. -/
def eFrac : Entry := ⟨some "6.75x6.75", some "2x", some "iphone", none, []⟩

/-- Record `eFrac` after filename derivation (`int(6.75) = 6`). -/
def eFracNamed : Entry := ⟨some "6.75x6.75", some "2x", some "iphone", some "Icon-6@2x.png", []⟩

/-- Record whose `size` string cannot be parsed (`float('w')` raises). -/
def eBadSize : Entry := ⟨some "wxh", some "2x", some "iphone", none, []⟩

/-- Record with valid `size` and `scale` but no `idiom` field at all. -/
def eNoIdiom : Entry := ⟨some "60x60", some "2x", none, none, []⟩

/-- Filename assignment touches no other field of a record. -/
theorem ensureFilename1_strip {e e' : Entry} (h : ensureFilename1 e = Except.ok e') :
    stripFilename e' = stripFilename e := by
  unfold ensureFilename1 at h
  split at h
  · split at h
    · exact absurd h (by simp)
    · split at h
      · exact absurd h (by simp)
      · simp only [Except.ok.injEq] at h
        subst h
        rfl
  · simp only [Except.ok.injEq] at h
    subst h
    rfl

/-- The `ensure_filenames` loop touches no field but `filename`, and keeps
the records' count and order. -/
theorem ensure_filenames_strip :
    ∀ {l l' : List Entry}, ensure_filenames l = Except.ok l' →
      l'.map stripFilename = l.map stripFilename
  | [], l', h => by
    simp only [ensure_filenames, Except.ok.injEq] at h
    subst h
    rfl
  | e :: rest, l', h => by
    unfold ensure_filenames at h
    split at h
    · exact absurd h (by simp)
    · split at h
      · exact absurd h (by simp)
      · simp only [Except.ok.injEq] at h
        subst h
        simp only [List.map_cons]
        rw [ensureFilename1_strip (by assumption), ensure_filenames_strip (by assumption)]

/-- A record that raises during filename derivation aborts the whole
`ensure_filenames` loop, whatever its position. -/
theorem ensure_filenames_error_of_mem :
    ∀ {l : List Entry} {e : Entry}, e ∈ l →
      (∃ msg, ensureFilename1 e = Except.error msg) →
      ∃ msg, ensure_filenames l = Except.error msg
  | [], e, hmem, _ => absurd hmem (by simp)
  | a :: rest, e, hmem, hbad => by
    rcases List.mem_cons.mp hmem with rfl | hmem'
    · obtain ⟨msg, hmsg⟩ := hbad
      exact ⟨msg, by simp [ensure_filenames, hmsg]⟩
    · cases ha : ensureFilename1 a with
      | error msg => exact ⟨msg, by simp [ensure_filenames, ha]⟩
      | ok a' =>
        obtain ⟨msg, hmsg⟩ := ensure_filenames_error_of_mem hmem' hbad
        exact ⟨msg, by simp [ensure_filenames, ha, hmsg]⟩

/-- Every event the write loop emits is an image write. -/
theorem runEvents_mem_writeImage (failing : String → Bool) :
    ∀ (l : List Entry) (ev : Event), ev ∈ (runEvents failing l).1 →
      ∃ n img, ev = Event.writeImage n img
  | [], _, h => absurd h (by simp [runEvents])
  | e :: rest, ev, h => by
    unfold runEvents at h
    cases hem : emitFile e with
    | error msg =>
      rw [hem] at h
      dsimp only at h
      exact absurd h (by simp)
    | ok o =>
      rw [hem] at h
      cases o with
      | none =>
        dsimp only at h
        exact runEvents_mem_writeImage failing rest ev h
      | some p =>
        obtain ⟨name, img⟩ := p
        dsimp only at h
        by_cases hfail : failing name
        · rw [if_pos hfail] at h
          exact absurd h (by simp)
        · rw [if_neg hfail] at h
          cases hr : runEvents failing rest with
          | mk evs err =>
            rw [hr] at h
            rcases List.mem_cons.mp h with rfl | h'
            · exact ⟨name, img, rfl⟩
            · exact runEvents_mem_writeImage failing rest ev (by rw [hr]; exact h')

/-- Distance between the exact quotient and its half-to-even rounding is
at most one half. -/
theorem roundHalfEven_dist (num den : Int) (hden : 0 < den) :
    |(num : ℚ) / (den : ℚ) - (roundHalfEven num den : ℚ)| ≤ 1 / 2 := by
  have hden0 : (den : ℚ) ≠ 0 := by exact_mod_cast hden.ne'
  have hdenQ : (0 : ℚ) < den := by exact_mod_cast hden
  have hsum : (den : ℚ) * ((num / den : Int) : ℚ) + ((num % den : Int) : ℚ) = (num : ℚ) := by
    exact_mod_cast congrArg (fun z : Int => (z : ℚ)) (Int.ediv_add_emod num den)
  have hr0 : (0 : ℚ) ≤ ((num % den : Int) : ℚ) := by
    exact_mod_cast Int.emod_nonneg num hden.ne'
  have hrden : ((num % den : Int) : ℚ) < (den : ℚ) := by
    exact_mod_cast Int.emod_lt_of_pos num hden
  have hq : (num : ℚ) / (den : ℚ) - ((num / den : Int) : ℚ) = ((num % den : Int) : ℚ) / den := by
    field_simp
    linarith [hsum]
  have hq1 : (num : ℚ) / (den : ℚ) - (((num / den : Int) : ℚ) + 1) =
      ((num % den : Int) : ℚ) / den - 1 := by
    rw [← hq]; ring
  have hcase_q : 2 * ((num % den : Int) : ℚ) ≤ den →
      |(num : ℚ) / den - ((num / den : Int) : ℚ)| ≤ 1 / 2 := by
    intro hle
    rw [abs_le, hq]
    have hnn : (0 : ℚ) ≤ ((num % den : Int) : ℚ) / den := by positivity
    constructor
    · linarith
    · rw [div_le_div_iff₀ hdenQ (by norm_num : (0 : ℚ) < 2)]
      linarith
  have hcase_q1 : (den : ℚ) ≤ 2 * ((num % den : Int) : ℚ) →
      |(num : ℚ) / den - (((num / den : Int) : ℚ) + 1)| ≤ 1 / 2 := by
    intro hge
    rw [abs_le, hq1]
    have hhalf : (1 : ℚ) / 2 ≤ ((num % den : Int) : ℚ) / den := by
      rw [div_le_div_iff₀ (by norm_num : (0 : ℚ) < 2) hdenQ]
      linarith
    have hlt1 : ((num % den : Int) : ℚ) / den < 1 := by
      rw [div_lt_one hdenQ]
      exact hrden
    constructor
    · linarith
    · linarith
  unfold roundHalfEven
  rcases lt_trichotomy (2 * (num % den)) den with hlt | heq | hgt
  · rw [if_pos hlt]
    exact hcase_q (by exact_mod_cast hlt.le)
  · rw [if_neg (by omega), if_neg (by omega)]
    have h2 : 2 * ((num % den : Int) : ℚ) = (den : ℚ) := by exact_mod_cast heq
    split
    · exact hcase_q h2.le
    · push_cast
      exact hcase_q1 h2.ge
  · rw [if_neg (by omega), if_pos hgt]
    push_cast
    exact hcase_q1 (by exact_mod_cast hgt.le)

/-- One row write does not change the buffer's size. -/
theorem drawRow_size (top bottom : RGB) (denom : Nat) (img : Array RGB) (y : Nat) :
    (drawRow top bottom denom img y).size = img.size := by
  unfold drawRow
  split
  · rw [Array.size_set]
  · rfl

/-- The whole gradient loop does not change the buffer's size. -/
theorem foldl_drawRow_size (top bottom : RGB) (denom : Nat) :
    ∀ (l : List Nat) (img : Array RGB),
      (l.foldl (drawRow top bottom denom) img).size = img.size
  | [], _ => rfl
  | a :: l, img => by
    rw [List.foldl_cons, foldl_drawRow_size top bottom denom l, drawRow_size]

/-- After the loop has run over `l`, a row whose index occurs in `l` holds
the interpolated color for its own index; other rows are untouched. -/
theorem foldl_drawRow_get (top bottom : RGB) (denom : Nat) :
    ∀ (l : List Nat) (img : Array RGB) (y : Nat), y < img.size →
      (l.foldl (drawRow top bottom denom) img)[y]? =
        if y ∈ l then some (rowColor top bottom y denom) else img[y]?
  | [], img, y, hy => by simp
  | a :: l, img, y, hy => by
    rw [List.foldl_cons,
      foldl_drawRow_get top bottom denom l (drawRow top bottom denom img a) y
        (by rw [drawRow_size]; exact hy)]
    by_cases hyl : y ∈ l
    · simp [hyl, List.mem_cons]
    · by_cases hya : y = a
      · subst hya
        have hset : (drawRow top bottom denom img y)[y]? =
            some (rowColor top bottom y denom) := by
          unfold drawRow
          rw [dif_pos hy]
          have hy' : y < (img.set ⟨y, hy⟩ (rowColor top bottom y denom)).size := by
            rw [Array.size_set]; exact hy
          rw [Array.getElem?_eq_getElem hy', Array.getElem_set]
          simp
        simp [hyl, hset]
      · have hne : (drawRow top bottom denom img a)[y]? = img[y]? := by
          unfold drawRow
          split
          · next ha =>
            have hy' : y < (img.set ⟨a, ha⟩ (rowColor top bottom a denom)).size := by
              rw [Array.size_set]; exact hy
            rw [Array.getElem?_eq_getElem hy', Array.getElem?_eq_getElem hy,
              Array.getElem_set]
            rw [if_neg (fun h : a = y => hya h.symm)]
          · rfl
        simp [hyl, hya, hne]

/-- Row `y` of the finished gradient buffer holds the interpolated color
at parameter `y / max 1 (size - 1)`. -/
theorem gradientRows_get (size : Nat) (top bottom : RGB) (y : Nat) (hy : y < size) :
    (gradientRows size top bottom)[y]? =
      some (rowColor top bottom y (max 1 (size - 1))) := by
  unfold gradientRows
  rw [foldl_drawRow_get top bottom (max 1 (size - 1)) (List.range size) _ y
    (by rw [Array.size_mkArray]; exact hy)]
  simp [List.mem_range, hy]

/-- Truncation toward zero of the exact value `(a * d + (b - a) * y) / d`
is the floor of the interpolation `a + (b - a) * (y / d)` whenever that
value is nonnegative. -/
theorem lerpInt_eq_floor (a b : Int) (y d : Nat) (hd : 0 < d)
    (hnn : 0 ≤ a * (d : Int) + (b - a) * (y : Int)) :
    lerpInt a b y d = ⌊(a : ℚ) + ((b : ℚ) - (a : ℚ)) * ((y : ℚ) / (d : ℚ))⌋ := by
  unfold lerpInt
  have hdz : ((d : ℕ) : ℚ) ≠ 0 := by
    exact_mod_cast hd.ne'
  have h1 : Int.tdiv (a * (d : Int) + (b - a) * (y : Int)) (d : Int) =
      (a * (d : Int) + (b - a) * (y : Int)) / (d : Int) :=
    Int.tdiv_eq_ediv hnn (by exact_mod_cast Nat.zero_le d)
  have h2 : ⌊((a * (d : Int) + (b - a) * (y : Int) : Int) : ℚ) / ((d : ℕ) : ℚ)⌋ =
      (a * (d : Int) + (b - a) * (y : Int)) / ((d : ℕ) : Int) :=
    Rat.floor_intCast_div_natCast _ d
  rw [h1, ← h2]
  congr 1
  field_simp

/-- Evaluation of one `ensure_filenames` iteration on a record whose
`size` and `scale` are present, nonempty and parse successfully. -/
theorem ensureFilename1_valid (e : Entry) (s c : String) (w h : Dec) (sc : Int)
    (hs : e.size = some s) (hs0 : s ≠ "") (hc : e.scale = some c) (hc0 : c ≠ "")
    (hps : parse_size s = Except.ok (w, h)) (hpc : parseScale c = some sc) :
    ensureFilename1 e = Except.ok { e with filename := some (deriveFilename w sc e.idiom) } := by
  unfold ensureFilename1
  rw [hs, hc]
  simp [truthy, hps, hpc, hs0, hc0]

/-- Evaluation of one generation-loop iteration on a record whose `size`,
`scale` and `filename` are present, nonempty and parse successfully. -/
theorem emitFile_valid (e : Entry) (s c f : String) (w h : Dec) (sc : Int)
    (hs : e.size = some s) (hs0 : s ≠ "") (hc : e.scale = some c) (hc0 : c ≠ "")
    (hf : e.filename = some f) (hf0 : f ≠ "")
    (hps : parse_size s = Except.ok (w, h)) (hpc : parseScale c = some sc) :
    emitFile e =
      if pxOf w sc = 1024 then Except.ok (some (f, OutputImage.master))
      else if pxOf w sc < 0 then Except.error "ValueError: resize"
      else Except.ok (some (f, OutputImage.resized Filter.lanczos (pxOf w sc) (pxOf w sc))) := by
  unfold emitFile
  rw [hs, hc, hf]
  simp [truthy, hps, hpc, hs0, hc0, hf0]

/-- C1: for every Icon Request whose `size`, `scale` and `filename` fields
are present and parse, the generation loop emits exactly one output image
whose width and height both equal `px = int(round(size.width * scale))` —
the half-to-even rounding of the exact product, as the fourth conjunct
states — and that image is the master composition unchanged when
`px = 1024`, and a Lanczos-resampled copy of the master at exactly
`(px, px)` otherwise. -/
theorem C1_output_dimensions (e : Entry) (s c f : String) (w h : Dec) (sc : Int)
    (hs : e.size = some s) (hs0 : s ≠ "")
    (hc : e.scale = some c) (hc0 : c ≠ "")
    (hf : e.filename = some f) (hf0 : f ≠ "")
    (hps : parse_size s = Except.ok (w, h))
    (hpc : parseScale c = some sc)
    (hpx : 0 ≤ pxOf w sc) :
    ∃ img, emitFile e = Except.ok (some (f, img)) ∧
      outW img = pxOf w sc ∧ outH img = pxOf w sc ∧
      |Dec.val w * ((sc : Int) : ℚ) - ((pxOf w sc : Int) : ℚ)| ≤ 1 / 2 ∧
      (pxOf w sc = 1024 → img = OutputImage.master) ∧
      (pxOf w sc ≠ 1024 →
        img = OutputImage.resized Filter.lanczos (pxOf w sc) (pxOf w sc)) := by
  have hemit := emitFile_valid e s c f w h sc hs hs0 hc hc0 hf hf0 hps hpc
  have hden : (0 : Int) < (10 : Int) ^ w.dexp := by positivity
  have hdist : |Dec.val w * ((sc : Int) : ℚ) - ((pxOf w sc : Int) : ℚ)| ≤ 1 / 2 := by
    have hd := roundHalfEven_dist (w.mant * sc) ((10 : Int) ^ w.dexp) hden
    have hval : Dec.val w * ((sc : Int) : ℚ) =
        ((w.mant * sc : Int) : ℚ) / (((10 : Int) ^ w.dexp : Int) : ℚ) := by
      unfold Dec.val
      push_cast
      ring
    rw [hval]
    exact hd
  by_cases h1024 : pxOf w sc = 1024
  · refine ⟨OutputImage.master, ?_, ?_, ?_, hdist, fun _ => rfl, fun hne => absurd h1024 hne⟩
    · rw [hemit, if_pos h1024]
    · rw [outW, h1024]
    · rw [outH, h1024]
  · refine ⟨OutputImage.resized Filter.lanczos (pxOf w sc) (pxOf w sc), ?_, rfl, rfl,
      hdist, fun hcon => absurd hcon h1024, fun _ => rfl⟩
    rw [hemit, if_neg h1024, if_neg (not_lt.mpr hpx)]

/-- C1 witness: the request `{size: "60x60", scale: "2x"}` with filename
`Icon-60@2x.png` produces a Lanczos resize of the master at 120×120. -/
theorem C1_output_dimensions_witness :
    ∃ img, emitFile eGoodNamed = Except.ok (some ("Icon-60@2x.png", img)) ∧
      outW img = pxOf ⟨60, 0⟩ 2 ∧ outH img = pxOf ⟨60, 0⟩ 2 ∧
      |Dec.val ⟨60, 0⟩ * (((2 : Int) : Int) : ℚ) - ((pxOf ⟨60, 0⟩ 2 : Int) : ℚ)| ≤ 1 / 2 ∧
      (pxOf ⟨60, 0⟩ 2 = 1024 → img = OutputImage.master) ∧
      (pxOf ⟨60, 0⟩ 2 ≠ 1024 →
        img = OutputImage.resized Filter.lanczos (pxOf ⟨60, 0⟩ 2) (pxOf ⟨60, 0⟩ 2)) :=
  C1_output_dimensions eGoodNamed "60x60" "2x" "Icon-60@2x.png" ⟨60, 0⟩ ⟨60, 0⟩ 2
    rfl (by decide) rfl (by decide) rfl (by decide) rfl rfl (by decide)

/-- C2 counterexample: the claim's own scenario record
`{size: "1024x1024", scale: "1x", idiom: "marketing"}` does not receive
the marketing-reserved filename `Icon-AppStore-1024.png`: the script
compares the idiom against the exact string `ios-marketing`, so this
record falls into the parameterized branch and is named
`Icon-1024@1x.png`. -/
theorem C2_marketing_counterexample :
    ensure_filenames [eMarketing] =
      Except.ok [{ eMarketing with filename := some "Icon-1024@1x.png" }] ∧
    "Icon-1024@1x.png" ≠ "Icon-AppStore-1024.png" :=
  ⟨rfl, by decide⟩

/-- C2 amended: the derived filename follows the fixed naming rule, with
the store/marketing variant recognized by idiom exactly `ios-marketing`:
such records receive the one reserved filename `Icon-AppStore-1024.png`,
and every other record receives `Icon-{int(size.width)}@{scale}x.png`; in
particular `{size: "1024x1024", scale: "1x", idiom: "ios-marketing"}`
gets the reserved name and `{size: "60x60", scale: "2x", idiom:
"iphone"}` gets `Icon-60@2x.png`. -/
theorem C2_filename_rule :
    (∀ (e : Entry) (s c : String) (w h : Dec) (sc : Int),
      e.size = some s → s ≠ "" → e.scale = some c → c ≠ "" →
      parse_size s = Except.ok (w, h) → parseScale c = some sc →
      ensureFilename1 e = Except.ok { e with filename := some (
        if e.idiom = some "ios-marketing" then "Icon-AppStore-1024.png"
        else "Icon-" ++ toString w.toInt ++ "@" ++ toString sc ++ "x.png") }) ∧
    ensure_filenames [eIosMarketing] =
      Except.ok [{ eIosMarketing with filename := some "Icon-AppStore-1024.png" }] ∧
    ensure_filenames [eGood] = Except.ok [eGoodNamed] := by
  refine ⟨?_, rfl, rfl⟩
  intro e s c w h sc hs hs0 hc hc0 hps hpc
  rw [ensureFilename1_valid e s c w h sc hs hs0 hc hc0 hps hpc]
  rfl

/-- C2 witness: the naming rule evaluated on the record
`{size: "60x60", scale: "2x", idiom: "iphone"}`. -/
theorem C2_filename_rule_witness :
    ensureFilename1 eGood = Except.ok { eGood with filename := some (
      if eGood.idiom = some "ios-marketing" then "Icon-AppStore-1024.png"
      else "Icon-" ++ toString (Dec.toInt ⟨60, 0⟩) ++ "@" ++ toString (2 : Int) ++ "x.png") } :=
  C2_filename_rule.1 eGood "60x60" "2x" ⟨60, 0⟩ ⟨60, 0⟩ 2
    rfl (by decide) rfl (by decide) rfl rfl

/-- C3 counterexample: two distinct Icon Requests of one manifest — same
size and scale, idioms `iphone` and `ipad` — both derive the filename
`Icon-60@2x.png`, so derivation is not collision-free within a
manifest. -/
theorem C3_collision_counterexample :
    eGood ≠ eIpad ∧
    ensure_filenames [eGood, eIpad] =
      Except.ok [eGoodNamed, { eIpad with filename := some "Icon-60@2x.png" }] ∧
    eGoodNamed.filename = some "Icon-60@2x.png" ∧
    ({ eIpad with filename := some "Icon-60@2x.png" } : Entry).filename =
      some "Icon-60@2x.png" :=
  ⟨by decide, rfl, rfl, rfl⟩

/-- C3 amended: filename derivation is deterministic — for records with
truthy `size` and `scale`, the result of the derivation depends only on
the `size`, `scale` and `idiom` fields — but it is not injective: two
distinct records of one manifest can derive the same filename. -/
theorem C3_deterministic_not_injective :
    (∀ e₁ e₂ : Entry, e₁.size = e₂.size → e₁.scale = e₂.scale → e₁.idiom = e₂.idiom →
      truthy e₁.size = true → truthy e₁.scale = true →
      Except.map Entry.filename (ensureFilename1 e₁) =
        Except.map Entry.filename (ensureFilename1 e₂)) ∧
    (∃ e₁ e₂ : Entry, e₁ ≠ e₂ ∧
      Except.map Entry.filename (ensureFilename1 e₁) =
        Except.map Entry.filename (ensureFilename1 e₂) ∧
      Except.map Entry.filename (ensureFilename1 e₁) =
        Except.ok (some "Icon-60@2x.png")) := by
  constructor
  · intro e₁ e₂ hs hc hi ht1 ht2
    unfold ensureFilename1
    rw [← hs, ← hc, ← hi, ht1, ht2]
    simp only [Bool.and_self, if_true]
    cases parse_size (e₁.size.getD "") with
    | error msg => rfl
    | ok wh =>
      obtain ⟨w, h⟩ := wh
      cases parseScale (e₁.scale.getD "") with
      | none => rfl
      | some sc => rfl
  · exact ⟨eGood, eIpad, by decide, rfl, rfl⟩

/-- C3 witness: determinism applied to `eGood` and `eGoodNamed`, which
agree on `size`, `scale` and `idiom` but differ in `filename`. -/
theorem C3_deterministic_witness :
    Except.map Entry.filename (ensureFilename1 eGood) =
      Except.map Entry.filename (ensureFilename1 eGoodNamed) :=
  C3_deterministic_not_injective.1 eGood eGoodNamed rfl rfl rfl rfl rfl

/-- C4: a record lacking `size` or `scale` (absent or empty — Python
falsy) is silently skipped: filename derivation returns it untouched and
the write loop emits nothing for it, while the rest of the manifest is
processed exactly as if the record were not there; concretely, the
two-record manifest `[eNoScale, eGood]` completes without aborting,
writes only `eGood`'s image, and rewrites the manifest with `eNoScale`
unchanged and `eGood` carrying its filename. -/
theorem C4_malformed_record_skipped :
    (∀ e : Entry, truthy e.size = false ∨ truthy e.scale = false →
      ensureFilename1 e = Except.ok e ∧ emitFile e = Except.ok none) ∧
    (∀ (e : Entry) (l : List Entry), truthy e.size = false ∨ truthy e.scale = false →
      ensure_filenames (e :: l) = Except.map (List.cons e) (ensure_filenames l)) ∧
    (∀ (failing : String → Bool) (e : Entry) (l : List Entry),
      truthy e.size = false ∨ truthy e.scale = false →
      runEvents failing (e :: l) = runEvents failing l) ∧
    generate_from_contents (fun _ => false) (some ⟨[eNoScale, eGood], []⟩) =
      ([Event.writeImage "Icon-60@2x.png" (OutputImage.resized Filter.lanczos 120 120),
        Event.writeManifest ⟨[eNoScale, eGoodNamed], []⟩], none) := by
  have hskip1 : ∀ e : Entry, truthy e.size = false ∨ truthy e.scale = false →
      ensureFilename1 e = Except.ok e := by
    intro e hmiss
    rcases hmiss with hm | hm <;> simp [ensureFilename1, hm]
  have hskip2 : ∀ e : Entry, truthy e.size = false ∨ truthy e.scale = false →
      emitFile e = Except.ok none := by
    intro e hmiss
    rcases hmiss with hm | hm <;> simp [emitFile, hm]
  refine ⟨fun e hm => ⟨hskip1 e hm, hskip2 e hm⟩, ?_, ?_, rfl⟩
  · intro e l hmiss
    cases hfl : ensure_filenames l
    all_goals
      conv_lhs => rw [ensure_filenames]
    all_goals
      rw [hskip1 e hmiss, hfl]
    all_goals rfl
  · intro failing e l hmiss
    conv_lhs => rw [runEvents]
    rw [hskip2 e hmiss]

/-- C4 witness: the skip behavior evaluated on the record missing its
`scale` field. -/
theorem C4_malformed_record_skipped_witness :
    ensureFilename1 eNoScale = Except.ok eNoScale ∧
    emitFile eNoScale = Except.ok none :=
  C4_malformed_record_skipped.1 eNoScale (Or.inr rfl)

/-- C5: whenever a run rewrites the manifest, the rewritten document
agrees with the original on everything the composer does not write: all
top-level fields other than `images` are unchanged, and the records —
same count, same order — agree on every field except the `filename` the
composer populates. -/
theorem C5_manifest_roundtrip (failing : String → Bool) (m : Manifest)
    (evs : List Event) (err : Option String) (m' : Manifest)
    (hrun : generate_from_contents failing (some m) = (evs, err))
    (hmem : Event.writeManifest m' ∈ evs) :
    m'.extra = m.extra ∧ m'.images.map stripFilename = m.images.map stripFilename := by
  unfold generate_from_contents at hrun
  dsimp only at hrun
  cases hef : ensure_filenames m.images with
  | error msg =>
    rw [hef] at hrun
    dsimp only at hrun
    injection hrun with h1 h2
    subst h1
    exact absurd hmem (by simp)
  | ok images =>
    rw [hef] at hrun
    dsimp only at hrun
    cases hr : runEvents failing images with
    | mk revs rerr =>
      rw [hr] at hrun
      cases rerr with
      | some msg =>
        dsimp only at hrun
        injection hrun with h1 h2
        subst h1
        obtain ⟨n, img, heq⟩ :=
          runEvents_mem_writeImage failing images _ (by rw [hr]; exact hmem)
        simp at heq
      | none =>
        dsimp only at hrun
        injection hrun with h1 h2
        subst h1
        rcases List.mem_append.mp hmem with hin | hin
        · obtain ⟨n, img, heq⟩ :=
            runEvents_mem_writeImage failing images _ (by rw [hr]; exact hin)
          simp at heq
        · have heq : Event.writeManifest m' =
              Event.writeManifest { m with images := images } := by
            simpa using hin
          have hm' : m' = { m with images := images } := by
            injection heq
          subst hm'
          exact ⟨rfl, ensure_filenames_strip hef⟩

/-- C5 witness: a concrete run over a manifest with an unknown top-level
field and an `eGood` record, whose rewritten manifest keeps both. -/
theorem C5_manifest_roundtrip_witness :
    (Manifest.mk [eGoodNamed] [("author", "me")]).extra =
      (Manifest.mk [eGood] [("author", "me")]).extra ∧
    (Manifest.mk [eGoodNamed] [("author", "me")]).images.map stripFilename =
      (Manifest.mk [eGood] [("author", "me")]).images.map stripFilename :=
  C5_manifest_roundtrip (fun _ => false) (Manifest.mk [eGood] [("author", "me")])
    [Event.writeImage "Icon-60@2x.png" (OutputImage.resized Filter.lanczos 120 120),
      Event.writeManifest (Manifest.mk [eGoodNamed] [("author", "me")])]
    none (Manifest.mk [eGoodNamed] [("author", "me")]) rfl (by simp)

/-- C6 counterexample: when the manifest is absent the process does abort
with the `Missing Contents.json` message and writes neither images nor
manifest, but not "before any I/O is performed": `main` creates the asset
directory — a filesystem side effect — before `generate_from_contents`
checks for the manifest, so the aborted run's event trace is nonempty. -/
theorem C6_mkdir_counterexample :
    main_run (fun _ => false) none =
      ([Event.mkdirAssets], some ("Missing Contents.json at " ++ CONTENTS_PATH)) ∧
    (main_run (fun _ => false) none).1 ≠ [] :=
  ⟨rfl, by decide⟩

/-- C6 amended: if the manifest file is absent, the process aborts with
the human-readable `Missing Contents.json at <path>` message, writes no
image files and does not rewrite the manifest; the only filesystem effect
of such a run is the asset-directory creation `main` performs before the
existence check. -/
theorem C6_missing_manifest (failing : String → Bool) :
    main_run failing none =
      ([Event.mkdirAssets], some ("Missing Contents.json at " ++ CONTENTS_PATH)) ∧
    (∀ (n : String) (img : OutputImage),
      Event.writeImage n img ∉ (main_run failing none).1) ∧
    (∀ m : Manifest, Event.writeManifest m ∉ (main_run failing none).1) := by
  refine ⟨rfl, ?_, ?_⟩
  · intro n img hmem
    simp [main_run, generate_from_contents] at hmem
  · intro m hmem
    simp [main_run, generate_from_contents] at hmem

/-- C6 witness: the amended statement instantiated at a concrete
filesystem behavior. -/
theorem C6_missing_manifest_witness :
    main_run (fun _ => true) none =
      ([Event.mkdirAssets], some ("Missing Contents.json at " ++ CONTENTS_PATH)) ∧
    (∀ (n : String) (img : OutputImage),
      Event.writeImage n img ∉ (main_run (fun _ => true) none).1) ∧
    (∀ m : Manifest, Event.writeManifest m ∉ (main_run (fun _ => true) none).1) :=
  C6_missing_manifest (fun _ => true)

/-- C7: the manifest write is the last event of a run and happens only in
runs that finish without error: whenever a run ends in an error — an
image write failure included — no manifest-write event occurs, and in an
error-free run the trace is image writes followed by exactly one final
manifest write. -/
theorem C7_manifest_written_last (failing : String → Bool) (mo : Option Manifest)
    (evs : List Event) (err : Option String)
    (hrun : generate_from_contents failing mo = (evs, err)) :
    (err ≠ none → ∀ m' : Manifest, Event.writeManifest m' ∉ evs) ∧
    (err = none → ∃ (evs₀ : List Event) (m' : Manifest),
      evs = evs₀ ++ [Event.writeManifest m'] ∧
      ∀ ev ∈ evs₀, ∃ n img, ev = Event.writeImage n img) := by
  cases mo with
  | none =>
    unfold generate_from_contents at hrun
    dsimp only at hrun
    injection hrun with h1 h2
    subst h1
    subst h2
    constructor
    · intro _ m' hmem
      simp at hmem
    · intro hnone
      exact absurd hnone (by simp)
  | some data =>
    unfold generate_from_contents at hrun
    dsimp only at hrun
    cases hef : ensure_filenames data.images with
    | error msg =>
      rw [hef] at hrun
      dsimp only at hrun
      injection hrun with h1 h2
      subst h1
      subst h2
      constructor
      · intro _ m' hmem
        simp at hmem
      · intro hnone
        exact absurd hnone (by simp)
    | ok images =>
      rw [hef] at hrun
      dsimp only at hrun
      cases hr : runEvents failing images with
      | mk revs rerr =>
        rw [hr] at hrun
        cases rerr with
        | some msg =>
          dsimp only at hrun
          injection hrun with h1 h2
          subst h1
          subst h2
          constructor
          · intro _ m' hmem
            obtain ⟨n, img, heq⟩ :=
              runEvents_mem_writeImage failing images _ (by rw [hr]; exact hmem)
            simp at heq
          · intro hnone
            exact absurd hnone (by simp)
        | none =>
          dsimp only at hrun
          injection hrun with h1 h2
          subst h1
          subst h2
          constructor
          · intro hne _
            exact absurd rfl hne
          · intro _
            refine ⟨revs, { data with images := images }, rfl, ?_⟩
            intro ev hev
            exact runEvents_mem_writeImage failing images ev (by rw [hr]; exact hev)

/-- C7 witness: a run whose only image write fails ends in an error and
its trace contains no manifest write. -/
theorem C7_manifest_written_last_witness :
    ((some "OSError: save failed" : Option String) ≠ none →
      ∀ m' : Manifest, Event.writeManifest m' ∉ ([] : List Event)) ∧
    ((some "OSError: save failed" : Option String) = none →
      ∃ (evs₀ : List Event) (m' : Manifest),
        ([] : List Event) = evs₀ ++ [Event.writeManifest m'] ∧
        ∀ ev ∈ evs₀, ∃ n img, ev = Event.writeImage n img) :=
  C7_manifest_written_last (fun _ => true) (some (Manifest.mk [eGood] [])) []
    (some "OSError: save failed") rfl

/-- C8 counterexample: the request `{size: "6.75x6.75", scale: "2x"}`
parses, its size/scale product is `6.75 × 2 = 13.5` — positive but not an
integer — and yet generation does not abort: the run completes without
error and produces an output image for that very request, at the rounded
dimension 14×14. -/
theorem C8_nonintegral_counterexample :
    parse_size "6.75x6.75" = Except.ok (⟨675, 2⟩, ⟨675, 2⟩) ∧
    parseScale "2x" = some 2 ∧
    Dec.val ⟨675, 2⟩ * ((2 : Int) : ℚ) = 27 / 2 ∧
    (¬ ∃ z : Int, (27 / 2 : ℚ) = (z : ℚ)) ∧
    generate_from_contents (fun _ => false) (some ⟨[eFrac], []⟩) =
      ([Event.writeImage "Icon-6@2x.png" (OutputImage.resized Filter.lanczos 14 14),
        Event.writeManifest ⟨[eFracNamed], []⟩], none) := by
  refine ⟨rfl, rfl, ?_, ?_, rfl⟩
  · unfold Dec.val
    norm_num
  · rintro ⟨z, hz⟩
    have h27 : (27 : ℚ) = (z : ℚ) * 2 := by
      field_simp at hz
      linarith
    have hint : (27 : Int) = z * 2 := by exact_mod_cast h27
    omega

/-- C8 amended: a malformed `size` or `scale` field — one whose string
does not parse — aborts generation with a fatal error before any file is
written, whatever the record's position in the manifest; but the code
never checks that `size.width * scale` is a positive integer: a parsable
request whose product is not an integer (here `6.75 × 2 = 13.5`, with
`10² ∤ 675·2`) is not rejected and produces an output at the half-to-even
rounded dimension, `pxOf = 14`. -/
theorem C8_malformed_aborts_rounding_not_checked :
    (∀ (failing : String → Bool) (m : Manifest) (e : Entry),
      e ∈ m.images → truthy e.size = true → truthy e.scale = true →
      ((∃ msg, parse_size (e.size.getD "") = Except.error msg) ∨
        parseScale (e.scale.getD "") = none) →
      ∃ msg, generate_from_contents failing (some m) = ([], some msg)) ∧
    generate_from_contents (fun _ => false) (some ⟨[eFrac], []⟩) =
      ([Event.writeImage "Icon-6@2x.png" (OutputImage.resized Filter.lanczos 14 14),
        Event.writeManifest ⟨[eFracNamed], []⟩], none) ∧
    pxOf ⟨675, 2⟩ 2 = 14 ∧ ¬ ((10 : Int) ^ 2 ∣ 675 * 2) := by
  refine ⟨?_, rfl, by decide, by decide⟩
  intro failing m e hmem ht1 ht2 hbad
  have h1 : ∃ msg, ensureFilename1 e = Except.error msg := by
    rcases hbad with ⟨msg, hmsg⟩ | hnone
    · exact ⟨msg, by simp [ensureFilename1, ht1, ht2, hmsg]⟩
    · cases hps : parse_size (e.size.getD "") with
      | error msg => exact ⟨msg, by simp [ensureFilename1, ht1, ht2, hps]⟩
      | ok wh =>
        obtain ⟨w, h⟩ := wh
        exact ⟨"ValueError: invalid literal for int",
          by simp [ensureFilename1, ht1, ht2, hps, hnone]⟩
  obtain ⟨msg, hmsg⟩ := ensure_filenames_error_of_mem hmem h1
  exact ⟨msg, by simp [generate_from_contents, hmsg]⟩

/-- C8 witness: the abort behavior on a manifest whose record carries the
unparsable size string `wxh`. -/
theorem C8_malformed_aborts_witness :
    ∃ msg, generate_from_contents (fun _ => false) (some ⟨[eBadSize], []⟩) =
      ([], some msg) :=
  C8_malformed_aborts_rounding_not_checked.1 (fun _ => false) ⟨[eBadSize], []⟩ eBadSize
    (by simp) rfl rfl
    (Or.inl ⟨"ValueError: could not convert string to float", rfl⟩)

/-- C9: in the background built at the canonical resolution 1024, the
gradient loop writes every row `y` with the color obtained by linear
interpolation between the fixed top color (99, 102, 241) and the fixed
bottom color (147, 51, 234) at the parameter `t = y / (1024 - 1)`, which
lies in `[0, 1]`; each channel is the interpolated value quantized to an
integer (the code's `int(...)`, here equal to the floor since every
channel stays nonnegative).  This is the buffer before the gloss overlay
is composited. -/
theorem C9_gradient_interpolation (y : Nat) (hy : y < 1024) :
    (gradientRows 1024 top_color bottom_color)[y]? =
      some (rowColor top_color bottom_color y 1023) ∧
    rowColor top_color bottom_color y 1023 =
      ⟨⌊(99 : ℚ) + ((147 : ℚ) - 99) * ((y : ℚ) / 1023)⌋,
       ⌊(102 : ℚ) + ((51 : ℚ) - 102) * ((y : ℚ) / 1023)⌋,
       ⌊(241 : ℚ) + ((234 : ℚ) - 241) * ((y : ℚ) / 1023)⌋⟩ ∧
    0 ≤ (y : ℚ) / 1023 ∧ (y : ℚ) / 1023 ≤ 1 := by
  have hyle : (y : Int) ≤ 1023 := by exact_mod_cast Nat.le_of_lt_succ hy
  have hy0 : (0 : Int) ≤ (y : Int) := Int.natCast_nonneg y
  refine ⟨?_, ?_, ?_, ?_⟩
  · exact gradientRows_get 1024 top_color bottom_color y hy
  · have h1 : lerpInt 99 147 y 1023 = ⌊(99 : ℚ) + ((147 : ℚ) - 99) * ((y : ℚ) / 1023)⌋ := by
      rw [lerpInt_eq_floor 99 147 y 1023 (by norm_num) (by omega)]
      norm_num
    have h2 : lerpInt 102 51 y 1023 = ⌊(102 : ℚ) + ((51 : ℚ) - 102) * ((y : ℚ) / 1023)⌋ := by
      rw [lerpInt_eq_floor 102 51 y 1023 (by norm_num) (by omega)]
      norm_num
    have h3 : lerpInt 241 234 y 1023 = ⌊(241 : ℚ) + ((234 : ℚ) - 241) * ((y : ℚ) / 1023)⌋ := by
      rw [lerpInt_eq_floor 241 234 y 1023 (by norm_num) (by omega)]
      norm_num
    show RGB.mk (lerpInt 99 147 y 1023) (lerpInt 102 51 y 1023) (lerpInt 241 234 y 1023) = _
    rw [h1, h2, h3]
  · positivity
  · rw [div_le_one (by norm_num : (0 : ℚ) < 1023)]
    exact_mod_cast Nat.le_of_lt_succ hy

/-- C9 witness: the gradient row property evaluated at row 511 of the
1024-pixel background. -/
theorem C9_gradient_interpolation_witness :
    (gradientRows 1024 top_color bottom_color)[511]? =
      some (rowColor top_color bottom_color 511 1023) ∧
    rowColor top_color bottom_color 511 1023 =
      ⟨⌊(99 : ℚ) + ((147 : ℚ) - 99) * (((511 : ℕ) : ℚ) / 1023)⌋,
       ⌊(102 : ℚ) + ((51 : ℚ) - 102) * (((511 : ℕ) : ℚ) / 1023)⌋,
       ⌊(241 : ℚ) + ((234 : ℚ) - 241) * (((511 : ℕ) : ℚ) / 1023)⌋⟩ ∧
    0 ≤ ((511 : ℕ) : ℚ) / 1023 ∧ ((511 : ℕ) : ℚ) / 1023 ≤ 1 :=
  C9_gradient_interpolation 511 (by decide)

/-- C10: a record whose `idiom` is absent or different from
`ios-marketing` is not skipped when its `size` and `scale` are valid: it
is assigned the parameterized filename
`Icon-{int(size.width)}@{scale}x.png` and the write loop emits an output
image for it; moreover, skipping in the derivation loop happens only for
records lacking `size` or `scale` — any record with both truthy either
raises or gets a filename assigned. -/
theorem C10_non_marketing_processed (e : Entry) (s c : String) (w h : Dec) (sc : Int)
    (hs : e.size = some s) (hs0 : s ≠ "") (hc : e.scale = some c) (hc0 : c ≠ "")
    (hidiom : e.idiom ≠ some "ios-marketing")
    (hps : parse_size s = Except.ok (w, h)) (hpc : parseScale c = some sc)
    (hpx : 0 ≤ pxOf w sc) :
    ensureFilename1 e = Except.ok { e with filename := some ("Icon-" ++ toString w.toInt ++ "@" ++ toString sc ++ "x.png") } ∧
    (∃ img, emitFile { e with filename := some ("Icon-" ++ toString w.toInt ++ "@" ++ toString sc ++ "x.png") } =
      Except.ok (some ("Icon-" ++ toString w.toInt ++ "@" ++ toString sc ++ "x.png", img))) ∧
    (∀ e' : Entry, truthy e'.size = true → truthy e'.scale = true →
      (∃ msg, ensureFilename1 e' = Except.error msg) ∨
      (∃ name, ensureFilename1 e' = Except.ok { e' with filename := some name })) := by
  refine ⟨?_, ?_, ?_⟩
  · rw [ensureFilename1_valid e s c w h sc hs hs0 hc hc0 hps hpc]
    unfold deriveFilename
    rw [if_neg hidiom]
  · have hname : ("Icon-" ++ toString w.toInt ++ "@" ++ toString sc ++ "x.png") ≠ "" := by
      intro hcon
      have hlen : ("Icon-" ++ toString w.toInt ++ "@" ++ toString sc ++ "x.png").length = 0 := by
        rw [hcon]
        rfl
      simp [String.length_append] at hlen
      exact absurd hlen.1.1.1.1 (by decide)
    have hemit := emitFile_valid { e with filename := some ("Icon-" ++ toString w.toInt ++ "@" ++ toString sc ++ "x.png") }
      s c ("Icon-" ++ toString w.toInt ++ "@" ++ toString sc ++ "x.png") w h sc
      hs hs0 hc hc0 rfl hname hps hpc
    by_cases h1024 : pxOf w sc = 1024
    · exact ⟨OutputImage.master, by rw [hemit, if_pos h1024]⟩
    · exact ⟨OutputImage.resized Filter.lanczos (pxOf w sc) (pxOf w sc),
        by rw [hemit, if_neg h1024, if_neg (not_lt.mpr hpx)]⟩
  · intro e' ht1 ht2
    unfold ensureFilename1
    rw [ht1, ht2]
    simp only [Bool.and_self, if_true]
    cases parse_size (e'.size.getD "") with
    | error msg => exact Or.inl ⟨msg, rfl⟩
    | ok wh =>
      obtain ⟨w', h'⟩ := wh
      cases parseScale (e'.scale.getD "") with
      | none => exact Or.inl ⟨"ValueError: invalid literal for int", rfl⟩
      | some sc' => exact Or.inr ⟨deriveFilename w' sc' e'.idiom, rfl⟩

/-- C10 witness: the record `{size: "60x60", scale: "2x"}` with no idiom
field gets `Icon-60@2x.png` and produces an output image. -/
theorem C10_non_marketing_processed_witness :
    ensureFilename1 eNoIdiom = Except.ok { eNoIdiom with filename := some ("Icon-" ++ toString (Dec.toInt ⟨60, 0⟩) ++ "@" ++ toString (2 : Int) ++ "x.png") } ∧
    (∃ img, emitFile { eNoIdiom with filename := some ("Icon-" ++ toString (Dec.toInt ⟨60, 0⟩) ++ "@" ++ toString (2 : Int) ++ "x.png") } =
      Except.ok (some ("Icon-" ++ toString (Dec.toInt ⟨60, 0⟩) ++ "@" ++ toString (2 : Int) ++ "x.png", img))) ∧
    (∀ e' : Entry, truthy e'.size = true → truthy e'.scale = true →
      (∃ msg, ensureFilename1 e' = Except.error msg) ∨
      (∃ name, ensureFilename1 e' = Except.ok { e' with filename := some name })) :=
  C10_non_marketing_processed eNoIdiom "60x60" "2x" ⟨60, 0⟩ ⟨60, 0⟩ 2
    rfl (by decide) rfl (by decide) (by decide) rfl rfl (by decide)

end RunC
